import Mathlib

/-!
# Park Bellevue Portal — verification of the catalog reader and editor

Shallow embedding of the two Python source files:

* `src/app.py` — the read-only dashboard (`load_catalog`, derived views
  such as `platform_counts`);
* `src/scripts/catalog_manager.py` — the `CatalogManager` editor
  (`_load_data`, `_backup_data`, `save_data`, `find_song_by_id`,
  `update_song`, `add_expense`, `add_revenue`, `get_revenue_summary`).

Python JSON objects are modelled as Lean structures whose optional keys
become `Option` fields; generic string-keyed sub-dictionaries (the
`registration` and `dates` mappings) become association lists with
Python `dict.update` / `d[k] = v` semantics.  Monetary amounts (Python
floats holding currency values) are modelled exactly as rationals.
File-system state (the shared catalog file and the backups directory)
is passed explicitly; timestamps are parameters.
-/

namespace ParkBellevue

/-- The owner this editor/reader is scoped to (hard-coded in both files). -/
def owner : String := "PARK_BELLEVUE"

/-- A string-keyed JSON sub-object (e.g. the `registration` or `dates`
mapping), as an association list in key-insertion order. -/
abbrev StrMap := List (String × String)

/-- Python `d[k] = v` on a dict rendered as an association list: an existing
key keeps its position and gets the new value, a fresh key is appended. -/
def setKey (m : StrMap) (k : String) (v : String) : StrMap :=
  if m.any (fun p => p.1 = k) then
    m.map (fun p => if p.1 = k then (k, v) else p)
  else
    m ++ [(k, v)]

/-- Python `old.update(new)`: every key/value pair of `new` is written into
`old` in order. -/
def dictUpdate (old new : StrMap) : StrMap :=
  new.foldl (fun m p => setKey m p.1 p.2) old

/-- Python `m.get(k)` on an association-list dict: value at the first
occurrence of the key. -/
def lookupKey (m : StrMap) (k : String) : Option String :=
  (m.find? (fun p => p.1 = k)).map (fun p => p.2)

/-- One expense entry, `{"date": ..., "amount": ..., "category": ...}`.
`amount` is optional because the summary reads it as `e.get('amount', 0)`. -/
structure Expense where
  date : String
  amount : Option ℚ
  category : String
deriving DecidableEq, Repr

/-- The `revenue` sub-object of a song; both keys are read with defaults
(`.get("total_earned", 0)`, `.get("expenses", [])`), so both are optional. -/
structure Revenue where
  total_earned : Option ℚ
  expenses : Option (List Expense)
deriving DecidableEq, Repr

/-- The `deployments` sub-object: three named platform lists, each read
with `.get(key, [])`, hence optional. -/
structure Deployments where
  distribution : Option (List String)
  sync_libraries : Option (List String)
  streaming : Option (List String)
deriving DecidableEq, Repr

/-- A song record of the shared catalog.  `song_id` and `title` are
accessed with `s["..."]` (required); every other field is read via
`.get` and is optional. -/
structure Song where
  song_id : String
  title : String
  artist : Option String
  act_id : Option String
  status : Option String
  legacy_code : Option String
  registration : Option StrMap
  deployments : Option Deployments
  revenue : Option Revenue
  dates : Option StrMap
deriving DecidableEq, Repr

/-- The catalog document: `{"songs": [...]}` plus any other top-level keys
the JSON may carry (held back verbatim by the editor and re-dumped on save). -/
structure Catalog where
  songs : Option (List Song)
  extra : StrMap
deriving DecidableEq, Repr

/-- `full_catalog.get("songs", [])`. -/
def Catalog.songList (c : Catalog) : List Song :=
  c.songs.getD []

/-- `s.get("act_id") == "PARK_BELLEVUE"`. -/
def isOwned (s : Song) : Bool :=
  s.act_id = some owner

/-! ## Reader (`src/app.py`) -/

/-- `load_catalog` of `app.py`: load the catalog file and filter to
PARK_BELLEVUE songs only; a missing file yields `[]`. -/
def load_catalog (file : Option Catalog) : List Song :=
  match file with
  | some c => c.songList.filter isOwned
  | none => []

/-! ## Editor state (`CatalogManager`) -/

/-- In-memory state of a `CatalogManager`: the held-back full document
(`self._full_catalog`) and the filtered owned working set
(`self.catalog["songs"]`). -/
structure EditorState where
  full : Catalog
  songs : List Song
deriving DecidableEq, Repr

/-- `CatalogManager._load_data`: on a present file keep the full document
and filter the owned subset; on a missing file both are empty. -/
def load_data (file : Option Catalog) : EditorState :=
  match file with
  | some c => { full := c, songs := c.songList.filter isOwned }
  | none => { full := { songs := some [], extra := [] }, songs := [] }

/-- File-system state: the shared `catalog.json` (`none` = absent) and the
backups directory, as the sorted list of the numeric timestamps embedded
in the `catalog_backup_<timestamp>.json` file names. -/
structure FS where
  catalogFile : Option Catalog
  backups : List Nat
deriving DecidableEq, Repr

/-- A `CatalogManager` session together with the file system it acts on. -/
structure Sys where
  st : EditorState
  fs : FS
deriving DecidableEq, Repr

/-! ## Backups (`CatalogManager._backup_data`) -/

/-- The `while len(backups) > 10: os.remove(backups.pop(0))` pruning loop:
drop the oldest (smallest-named) files until at most ten remain. -/
def prune_backups (l : List Nat) : List Nat :=
  l.drop (l.length - 10)

/-- `CatalogManager._backup_data` effect on the backups directory: write a
backup file named with timestamp `t` (a second write within the same second
overwrites the same name, leaving the set unchanged), then list the files
sorted by name and prune down to ten. -/
def backup_data (t : Nat) (backups : List Nat) : List Nat :=
  let files := if t ∈ backups then backups else backups ++ [t]
  prune_backups (files.mergeSort (fun a b => a ≤ b))

/-! ## Save (`CatalogManager.save_data`) -/

/-- The reconstructed full song list written by `save_data`: other-owner
songs of the held-back document, then the in-memory owned songs. -/
def mergedSongs (st : EditorState) : List Song :=
  st.full.songList.filter (fun s => !(isOwned s)) ++ st.songs

/-- `CatalogManager.save_data`: attempt the backup (its failure is
swallowed — `backupOk = false` models a backup that raised), then rebuild
the full document as other-owner songs plus the owned working set, store it
back in `self._full_catalog`, and overwrite the shared catalog file. -/
def save_data (sys : Sys) (t : Nat) (backupOk : Bool) : Sys :=
  let fs1 := if backupOk then { sys.fs with backups := backup_data t sys.fs.backups } else sys.fs
  let newFull : Catalog := { sys.st.full with songs := some (mergedSongs sys.st) }
  { st := { full := newFull, songs := sys.st.songs },
    fs := { fs1 with catalogFile := some newFull } }

/-! ## Lookups (`find_song_by_title`, `find_song_by_id`) -/

/-- `CatalogManager.find_song_by_id`: first owned song with the given id. -/
def find_song_by_id (st : EditorState) (song_id : String) : Option Song :=
  st.songs.find? (fun s => s.song_id = song_id)

/-- `CatalogManager.find_song_by_title`: first owned song whose title
matches case-insensitively. -/
def find_song_by_title (st : EditorState) (title : String) : Option Song :=
  st.songs.find? (fun s => s.title.toLower = title.toLower)

/-- Replace the first song satisfying `p` by its image under `f`
(the in-place mutation through the reference found by the lookup loop);
`none` when no song matches. -/
def modifyFirst (p : Song → Bool) (f : Song → Song) : List Song → Option (List Song)
  | [] => none
  | s :: rest =>
    if p s then some (f s :: rest)
    else (modifyFirst p f rest).map (fun l => s :: l)

/-! ## `update_song` -/

/-- Key-granular update of the `deployments` dict
(`song['deployments'].update(...)`): a key present in the update replaces
the stored list, an absent key leaves it alone. -/
def updOpt {α : Type} (new old : Option α) : Option α :=
  match new with
  | some v => some v
  | none => old

/-- The `updates` dict passed to `update_song`.  Each field is `some` when
the corresponding key is present.  (`song_id` and `act_id` — the record's
identity and partition key — are not among the editable details the updates
dict carries.) -/
structure Updates where
  title : Option String
  artist : Option String
  status : Option String
  legacy_code : Option String
  revenue : Option Revenue
  registration : Option StrMap
  deployments : Option Deployments
deriving DecidableEq, Repr

/-- The `updates.pop('registration')` / `updates.pop('deployments')` calls
remove the two nested keys from the caller's dict. -/
def popNested (u : Updates) : Updates :=
  { u with registration := none, deployments := none }

/-- The fresh `deployments` dict created when the song has none:
`{"distribution": [], "sync_libraries": [], "streaming": []}`. -/
def emptyDeployments : Deployments :=
  { distribution := some [], sync_libraries := some [], streaming := some [] }

/-- The body of the `update_song` match arm applied to the found song:
merge `registration` key-by-key, merge `deployments` key-by-key (creating
either mapping when absent), overwrite the remaining top-level fields that
the updates dict carries, then stamp `dates['last_modified']`. -/
def applyUpdates (s : Song) (u : Updates) (now : String) : Song :=
  let s1 :=
    match u.registration with
    | none => s
    | some reg => { s with registration := some (dictUpdate (s.registration.getD []) reg) }
  let s2 :=
    match u.deployments with
    | none => s1
    | some du =>
      let base := s1.deployments.getD emptyDeployments
      { s1 with deployments := some (
          { distribution := updOpt du.distribution base.distribution,
            sync_libraries := updOpt du.sync_libraries base.sync_libraries,
            streaming := updOpt du.streaming base.streaming } : Deployments) }
  let s3 := { s2 with
    title := u.title.getD s2.title,
    artist := updOpt u.artist s2.artist,
    status := updOpt u.status s2.status,
    legacy_code := updOpt u.legacy_code s2.legacy_code,
    revenue := updOpt u.revenue s2.revenue }
  { s3 with dates := some (setKey (s3.dates.getD []) "last_modified" now) }

/-- `CatalogManager.update_song`: find the first owned song with the given
id, apply the updates (popping the two nested keys out of the caller's
dict), stamp the timestamp, save, and return `true`; return `false` and
touch nothing when no owned song matches.  The result carries the success
flag, the post-state, and the caller's updates dict as left after the call. -/
def update_song (sys : Sys) (song_id : String) (u : Updates) (now : String)
    (t : Nat) (backupOk : Bool) : Bool × Sys × Updates :=
  match modifyFirst (fun s => s.song_id = song_id) (fun s => applyUpdates s u now) sys.st.songs with
  | some songs' =>
    let st' : EditorState := { sys.st with songs := songs' }
    (true, save_data { sys with st := st' } t backupOk, popNested u)
  | none => (false, sys, u)

/-! ## Revenue operations -/

/-- The lazily-created revenue structure
`{"expenses": [], "total_earned": 0}`. -/
def freshRevenue : Revenue :=
  { total_earned := some 0, expenses := some [] }

/-- The mutation `add_expense` applies to the found song: lazily initialize
`revenue` (and its `expenses` list), then append the dated entry. -/
def addExpenseToSong (d : String) (a : ℚ) (c : String) (s : Song) : Song :=
  let rev := s.revenue.getD freshRevenue
  { s with revenue := some (
      { rev with expenses := some (rev.expenses.getD [] ++ [⟨d, some a, c⟩]) } : Revenue) }

/-- The mutation `add_revenue` applies to the found song: lazily initialize
`revenue`, then add the amount to `total_earned` (default 0). -/
def addRevenueToSong (a : ℚ) (s : Song) : Song :=
  let rev := s.revenue.getD freshRevenue
  { s with revenue := some (
      { rev with total_earned := some (rev.total_earned.getD 0 + a) } : Revenue) }

/-- `CatalogManager.add_expense`.  The boolean stands for the returned
message: `false` for `"Song not found."` (no state change), `true` for the
success message, after appending the expense and saving. -/
def add_expense (sys : Sys) (song_id : String) (a : ℚ) (c : String)
    (d : String) (t : Nat) (backupOk : Bool) : Bool × Sys :=
  match modifyFirst (fun s => s.song_id = song_id) (addExpenseToSong d a c) sys.st.songs with
  | none => (false, sys)
  | some songs' =>
    let st' : EditorState := { sys.st with songs := songs' }
    (true, save_data { sys with st := st' } t backupOk)

/-- `CatalogManager.add_revenue`, same shape as `add_expense`. -/
def add_revenue (sys : Sys) (song_id : String) (a : ℚ)
    (t : Nat) (backupOk : Bool) : Bool × Sys :=
  match modifyFirst (fun s => s.song_id = song_id) (addRevenueToSong a) sys.st.songs with
  | none => (false, sys)
  | some songs' =>
    let st' : EditorState := { sys.st with songs := songs' }
    (true, save_data { sys with st := st' } t backupOk)

/-! ## Summaries -/

/-- `s.get("revenue", {}).get("total_earned", 0)`. -/
def songEarned (s : Song) : ℚ :=
  match s.revenue with
  | none => 0
  | some r => r.total_earned.getD 0

/-- `sum(e.get('amount', 0) for e in s.get('revenue', {}).get('expenses', []))`. -/
def songExpenses (s : Song) : ℚ :=
  (((match s.revenue with
     | none => []
     | some r => r.expenses.getD []) : List Expense).map (fun e => e.amount.getD 0)).sum

/-- Result record of `get_revenue_summary`. -/
structure RevenueSummary where
  total_revenue : ℚ
  total_expenses : ℚ
  net_revenue : ℚ
deriving DecidableEq, Repr

/-- `CatalogManager.get_revenue_summary`: totals over the owned subset,
net = total earned minus the sum of all expense amounts. -/
def get_revenue_summary (st : EditorState) : RevenueSummary :=
  let total := (st.songs.map songEarned).sum
  let expenses := (st.songs.map songExpenses).sum
  { total_revenue := total, total_expenses := expenses, net_revenue := total - expenses }

/-! ## Platform coverage (`app.py`, Deployment Status page) -/

/-- `deps.get('distribution', []) + deps.get('sync_libraries', []) +
deps.get('streaming', [])` with `deps = s.get('deployments', {})`. -/
def allPlats (s : Song) : List String :=
  match s.deployments with
  | none => []
  | some d => d.distribution.getD [] ++ d.sync_libraries.getD [] ++ d.streaming.getD []

/-- The `platform_counts` dict of `app.py`: for every song each occurrence
of a platform name in its three combined deployment lists bumps the
platform's counter.  `platform_counts songs p` is the counter the dict
holds for `p` (0 when absent). -/
def platform_counts (songs : List Song) (p : String) : Nat :=
  ((songs.map allPlats).flatten).count p

/-- The number of distinct songs referencing platform `p` anywhere across
the three deployment lists — the quantity the specification describes the
platform-coverage view as reporting. -/
def spec_distinct_song_count (songs : List Song) (p : String) : Nat :=
  (songs.filter (fun s => decide (p ∈ allPlats s))).length

/-! ## Editor sessions -/

/-- One mutating call of the editor's public API, with the ambient
timestamps and backup outcome it runs under. -/
inductive Mutation where
  | upd (song_id : String) (u : Updates) (now : String) (t : Nat) (backupOk : Bool)
  | exp (song_id : String) (a : ℚ) (c : String) (d : String) (t : Nat) (backupOk : Bool)
  | rev (song_id : String) (a : ℚ) (t : Nat) (backupOk : Bool)

/-- State effect of one mutating call. -/
def applyMutation (sys : Sys) : Mutation → Sys
  | .upd song_id u now t bk => (update_song sys song_id u now t bk).2.1
  | .exp song_id a c d t bk => (add_expense sys song_id a c d t bk).2
  | .rev song_id a t bk => (add_revenue sys song_id a t bk).2

/-- State effect of a whole editor session: a sequence of mutating calls. -/
def applyMutations (sys : Sys) (ms : List Mutation) : Sys :=
  ms.foldl applyMutation sys

/-- A session start: construct the manager over the current catalog file
(`__init__` runs `_load_data`). -/
def startSession (fs : FS) : Sys :=
  { st := load_data fs.catalogFile, fs := fs }

/-- A sequence of plain saves with the given backup timestamps
(each with a successful backup). -/
def saveSeq (sys : Sys) (ts : List Nat) : Sys :=
  ts.foldl (fun s t => save_data s t true) sys

/-! ## Sample data (used by witnesses and counterexamples) -/

/-- A Park Bellevue song, as in the §8 scenario of the specification. -/
def sampleOwnedSong : Song :=
  { song_id := "S1", title := "Night Drive", artist := some "Park Bellevue",
    act_id := some "PARK_BELLEVUE", status := some "demo", legacy_code := none,
    registration := none, deployments := none, revenue := none, dates := none }

/-- A song belonging to another act. -/
def sampleOtherSong : Song :=
  { song_id := "S2", title := "Elsewhere", artist := some "Other Act",
    act_id := some "OTHER", status := some "released", legacy_code := none,
    registration := none, deployments := none, revenue := none, dates := none }

/-- A two-owner catalog document with the owned song listed first. -/
def sampleCatalog : Catalog :=
  { songs := some [sampleOwnedSong, sampleOtherSong], extra := [] }

/-- A session opened on `sampleCatalog` with an empty backups directory. -/
def sampleSys : Sys :=
  startSession { catalogFile := some sampleCatalog, backups := [] }

/-- A song that lists the same platform in two deployment categories. -/
def dualPlatformSong : Song :=
  { sampleOwnedSong with
    song_id := "S3",
    title := "Twice Deployed",
    deployments := some (
      { distribution := some ["DistroKid"],
        sync_libraries := some ["YouTube"],
        streaming := some ["YouTube", "Spotify"] } : Deployments) }

/-- A nested update touching every kind of field `update_song` handles. -/
def sampleUpdates : Updates :=
  { title := none, artist := none, status := some "mastered", legacy_code := none,
    revenue := none,
    registration := some [("isrc", "US-XYZ-26-00001")],
    deployments := some (
      { distribution := some ["DistroKid"], sync_libraries := none,
        streaming := none } : Deployments) }

/-! ## General lemmas about the embedding -/

theorem isOwned_iff (s : Song) : isOwned s = true ↔ s.act_id = some owner := by
  simp [isOwned]

/-- `modifyFirst` succeeds exactly on the first match, pointwise. -/
theorem modifyFirst_append (p : Song → Bool) (f : Song → Song)
    (pre post : List Song) (s : Song)
    (hpre : ∀ x ∈ pre, p x = false) (hs : p s = true) :
    modifyFirst p f (pre ++ s :: post) = some (pre ++ f s :: post) := by
  induction pre with
  | nil => simp [modifyFirst, hs]
  | cons x xs ih =>
    have hx := hpre x (List.mem_cons_self x xs)
    have ih' := ih (fun y hy => hpre y (List.mem_cons_of_mem x hy))
    simp [modifyFirst, hx, ih']

/-- `modifyFirst` fails exactly when no song matches. -/
theorem modifyFirst_eq_none (p : Song → Bool) (f : Song → Song) (l : List Song)
    (h : ∀ x ∈ l, p x = false) : modifyFirst p f l = none := by
  induction l with
  | nil => rfl
  | cons x xs ih =>
    have hx := h x (List.mem_cons_self x xs)
    simp only [modifyFirst, hx]
    rw [ih (fun y hy => h y (List.mem_cons_of_mem x hy))]
    rfl

/-- `modifyFirst` succeeds when some song matches. -/
theorem modifyFirst_isSome (p : Song → Bool) (f : Song → Song) (l : List Song)
    (h : ∃ x ∈ l, p x = true) : (modifyFirst p f l).isSome = true := by
  induction l with
  | nil => simp at h
  | cons x xs ih =>
    by_cases hx : p x = true
    · simp [modifyFirst, hx]
    · have hx' : p x = false := by simpa using hx
      obtain ⟨y, hy, hpy⟩ := h
      rcases List.mem_cons.mp hy with rfl | hy
      · exact absurd hpy hx
      · simp only [modifyFirst, hx', Bool.false_eq_true, if_false, Option.isSome_map']
        exact ih ⟨y, hy, hpy⟩

/-- Decomposition of a successful `modifyFirst`. -/
theorem modifyFirst_eq_some (p : Song → Bool) (f : Song → Song)
    {l l' : List Song} (h : modifyFirst p f l = some l') :
    ∃ pre s post, l = pre ++ s :: post ∧ l' = pre ++ f s :: post ∧
      p s = true ∧ ∀ x ∈ pre, p x = false := by
  induction l generalizing l' with
  | nil => simp [modifyFirst] at h
  | cons x xs ih =>
    by_cases hx : p x = true
    · refine ⟨[], x, xs, by simp, ?_, hx, by simp⟩
      simp [modifyFirst, hx] at h
      simp [h.symm]
    · have hx' : p x = false := by simpa using hx
      simp only [modifyFirst, hx'] at h
      simp only [Bool.false_eq_true, if_false, Option.map_eq_some'] at h
      obtain ⟨l'', hl'', rfl⟩ := h
      obtain ⟨pre, s, post, rfl, rfl, hps, hpre⟩ := ih hl''
      exact ⟨x :: pre, s, post, rfl, rfl, hps,
        fun y hy => by
          rcases List.mem_cons.mp hy with rfl | hy
          · exact hx'
          · exact hpre y hy⟩

/-! ## C2 — reader and editor load the same owned subset -/

/-- C2: for every catalog document, the Reader's `load_catalog` and the
Editor's `_load_data` produce exactly the songs whose `act_id` is
`"PARK_BELLEVUE"` — the same list for both, containing a song iff it is in
the document with the owned `act_id`, in the original relative order
(a sublist of the document) — and a missing catalog file yields the empty
sequence for both, without an error. -/
theorem load_filters_owned_subset :
    (∀ file : Option Catalog, load_catalog file = (load_data file).songs) ∧
    (∀ c : Catalog, ∀ s : Song,
        s ∈ load_catalog (some c) ↔ s ∈ c.songList ∧ s.act_id = some "PARK_BELLEVUE") ∧
    (∀ c : Catalog, (load_catalog (some c)).Sublist c.songList) ∧
    load_catalog none = [] ∧ (load_data none).songs = [] := by
  refine ⟨?_, ?_, ?_, rfl, rfl⟩
  · intro file
    cases file <;> rfl
  · intro c s
    simp [load_catalog, List.mem_filter, isOwned, owner]
  · intro c
    exact List.filter_sublist _

/-! ## C7 — a failed backup never blocks or alters the save -/

/-- C7: whether the timestamped backup write succeeds or fails (the failure
being swallowed), `save_data` performs exactly the same merge-and-overwrite
of the shared catalog file: the written document and the post-save editor
state are identical, and the written document is the held-back document
with its songs replaced by other-owner songs followed by the owned list. -/
theorem save_unaffected_by_backup_failure (sys : Sys) (t : Nat) :
    (save_data sys t false).fs.catalogFile = (save_data sys t true).fs.catalogFile ∧
    (save_data sys t false).st = (save_data sys t true).st ∧
    (save_data sys t false).fs.catalogFile =
      some { sys.st.full with songs := some (mergedSongs sys.st) } := by
  refine ⟨rfl, rfl, rfl⟩

/-! ## C10 — every save groups other-owner songs first -/

/-- C10: every `save_data` call writes the document with all songs whose
`act_id` differs from `"PARK_BELLEVUE"` first (in their prior relative
order) and the owned songs appended after them; concretely, a catalog that
interleaves the owners (owned song first) is reordered by a plain
load-then-save, so the original interleaving is not preserved. -/
theorem save_reorders_owner_interleaving (sys : Sys) (t : Nat) (bk : Bool) :
    ((save_data sys t bk).fs.catalogFile.map Catalog.songList) =
      some (sys.st.full.songList.filter (fun s => !(isOwned s)) ++ sys.st.songs) ∧
    ((save_data sampleSys 1 true).fs.catalogFile.map Catalog.songList =
       some [sampleOtherSong, sampleOwnedSong] ∧
     sampleCatalog.songList = [sampleOwnedSong, sampleOtherSong] ∧
     ([sampleOtherSong, sampleOwnedSong] : List Song) ≠ [sampleOwnedSong, sampleOtherSong]) := by
  refine ⟨rfl, by decide, by decide, by decide⟩

/-! ## C9 — `update_song` mutates the caller's updates dict -/

/-- C9: when `update_song` finds a matching owned song and the updates dict
carries a `registration` or `deployments` key, the `pop` calls strip those
keys out of the caller's mapping: the dict as left after the call no longer
holds either nested entry. -/
theorem update_song_pops_nested_keys (sys : Sys) (song_id : String) (u : Updates)
    (now : String) (t : Nat) (bk : Bool)
    (hfound : (find_song_by_id sys.st song_id).isSome = true)
    (_hnested : u.registration.isSome = true ∨ u.deployments.isSome = true) :
    (update_song sys song_id u now t bk).2.2.registration = none ∧
    (update_song sys song_id u now t bk).2.2.deployments = none := by
  obtain ⟨s, hs⟩ := Option.isSome_iff_exists.mp hfound
  have hfind := hs
  unfold find_song_by_id at hfind
  obtain ⟨hps, i, hlt, hgeti, hbefore⟩ := List.find?_eq_some_iff_getElem.mp hfind
  have hdecomp : sys.st.songs =
      sys.st.songs.take i ++ sys.st.songs[i] :: sys.st.songs.drop (i + 1) := by
    conv_lhs => rw [← List.take_append_drop i sys.st.songs]
    congr 1
    rw [List.getElem_cons_drop]
  have hmod : modifyFirst (fun s => s.song_id = song_id)
      (fun s => applyUpdates s u now) sys.st.songs ≠ none := by
    rw [hdecomp]
    rw [modifyFirst_append _ _ _ _ _ ?_ ?_]
    · simp
    · intro x hx
      obtain ⟨j, hj, rfl⟩ := List.mem_take_iff_getElem.mp hx
      have := hbefore j (by omega)
      simpa using this
    · rw [hgeti]
      simpa using hps
  unfold update_song
  cases hcase : modifyFirst (fun s => s.song_id = song_id)
      (fun s => applyUpdates s u now) sys.st.songs with
  | none => exact absurd hcase hmod
  | some songs' => exact ⟨rfl, rfl⟩

/-- Witness for C9 at a concrete session and update. -/
theorem update_song_pops_nested_keys_witness :
    (find_song_by_id sampleSys.st "S1").isSome = true ∧
    sampleUpdates.registration.isSome = true ∧
    (update_song sampleSys "S1" sampleUpdates "2026-02-01T00:00:00" 7 true).2.2.registration = none ∧
    (update_song sampleSys "S1" sampleUpdates "2026-02-01T00:00:00" 7 true).2.2.deployments = none := by
  refine ⟨by decide, by decide, ?_⟩
  exact update_song_pops_nested_keys sampleSys "S1" sampleUpdates
    "2026-02-01T00:00:00" 7 true (by decide) (Or.inl (by decide))

/-! ## C4 — a missing id changes nothing -/

/-- C4: when no owned song has the requested id, `find_song_by_id` returns
not-found, and `update_song` returns `false` leaving everything untouched:
the in-memory catalog, the shared catalog file, the backups directory and
the caller's updates dict are all exactly as before (no save and no backup
happens). -/
theorem missing_id_is_noop (sys : Sys) (song_id : String) (u : Updates)
    (now : String) (t : Nat) (bk : Bool)
    (habsent : ∀ s ∈ sys.st.songs, s.song_id ≠ song_id) :
    find_song_by_id sys.st song_id = none ∧
    update_song sys song_id u now t bk = (false, sys, u) := by
  constructor
  · exact List.find?_eq_none.mpr (by simpa using habsent)
  · unfold update_song
    rw [modifyFirst_eq_none _ _ _ (fun x hx => by simpa using habsent x hx)]

/-- Witness for C4: the §8 scenario id `"does-not-exist"`. -/
theorem missing_id_is_noop_witness :
    (∀ s ∈ sampleSys.st.songs, s.song_id ≠ "does-not-exist") ∧
    find_song_by_id sampleSys.st "does-not-exist" = none ∧
    update_song sampleSys "does-not-exist" sampleUpdates "2026-02-01" 7 true =
      (false, sampleSys, sampleUpdates) := by
  refine ⟨by decide, ?_⟩
  exact missing_id_is_noop sampleSys "does-not-exist" sampleUpdates "2026-02-01" 7 true
    (by decide)

/-! ## C6 — expense and revenue arithmetic -/

theorem songEarned_addExpense (d : String) (a : ℚ) (c : String) (s : Song) :
    songEarned (addExpenseToSong d a c s) = songEarned s := by
  cases hr : s.revenue <;> simp [addExpenseToSong, songEarned, freshRevenue, hr]

theorem songExpenses_addExpense (d : String) (a : ℚ) (c : String) (s : Song) :
    songExpenses (addExpenseToSong d a c s) = songExpenses s + a := by
  cases hr : s.revenue with
  | none => simp [addExpenseToSong, songExpenses, freshRevenue, hr]
  | some r =>
    cases he : r.expenses <;>
      simp [addExpenseToSong, songExpenses, freshRevenue, hr, he]

theorem songEarned_addRevenue (a : ℚ) (s : Song) :
    songEarned (addRevenueToSong a s) = songEarned s + a := by
  cases hr : s.revenue with
  | none => simp [addRevenueToSong, songEarned, freshRevenue, hr]
  | some r =>
    cases he : r.total_earned <;>
      simp [addRevenueToSong, songEarned, freshRevenue, hr, he]

theorem songExpenses_addRevenue (a : ℚ) (s : Song) :
    songExpenses (addRevenueToSong a s) = songExpenses s := by
  cases hr : s.revenue <;> simp [addRevenueToSong, songExpenses, freshRevenue, hr]

theorem sum_map_middle (g : Song → ℚ) (pre post : List Song) (s : Song) :
    ((pre ++ s :: post).map g).sum = (pre.map g).sum + g s + (post.map g).sum := by
  simp [List.sum_append]
  ring

/-- The summary after modifying the first matching song. -/
theorem revenue_summary_modifyFirst (p : Song → Bool) (f : Song → Song)
    (eΔ xΔ : ℚ) {songs songs' : List Song} (h : modifyFirst p f songs = some songs')
    (hE : ∀ s, songEarned (f s) = songEarned s + eΔ)
    (hX : ∀ s, songExpenses (f s) = songExpenses s + xΔ) :
    (songs'.map songEarned).sum = (songs.map songEarned).sum + eΔ ∧
    (songs'.map songExpenses).sum = (songs.map songExpenses).sum + xΔ := by
  obtain ⟨pre, s, post, rfl, rfl, _, _⟩ := modifyFirst_eq_some p f h
  constructor
  · rw [sum_map_middle, sum_map_middle, hE s]; ring
  · rw [sum_map_middle, sum_map_middle, hX s]; ring

/-- C6: on an owned song, `add_expense` leaves reported total revenue
unchanged and lowers net revenue by exactly the amount, while `add_revenue`
raises both total and net revenue by exactly the amount; both lazily
create the song's `revenue` structure when it is absent, and both persist
at once (after the call the shared catalog file holds exactly the editor's
reconstructed in-memory document). -/
theorem expense_and_revenue_arithmetic (sys : Sys) (song_id : String)
    (a : ℚ) (c d : String) (t : Nat) (bk : Bool)
    (hfound : ∃ s ∈ sys.st.songs, s.song_id = song_id) :
    (add_expense sys song_id a c d t bk).1 = true ∧
    (get_revenue_summary (add_expense sys song_id a c d t bk).2.st).total_revenue =
      (get_revenue_summary sys.st).total_revenue ∧
    (get_revenue_summary (add_expense sys song_id a c d t bk).2.st).net_revenue =
      (get_revenue_summary sys.st).net_revenue - a ∧
    (add_revenue sys song_id a t bk).1 = true ∧
    (get_revenue_summary (add_revenue sys song_id a t bk).2.st).total_revenue =
      (get_revenue_summary sys.st).total_revenue + a ∧
    (get_revenue_summary (add_revenue sys song_id a t bk).2.st).net_revenue =
      (get_revenue_summary sys.st).net_revenue + a ∧
    (∀ s : Song, ((addExpenseToSong d a c s).revenue).isSome = true ∧
                 ((addRevenueToSong a s).revenue).isSome = true) ∧
    (add_expense sys song_id a c d t bk).2.fs.catalogFile =
      some (add_expense sys song_id a c d t bk).2.st.full ∧
    (add_revenue sys song_id a t bk).2.fs.catalogFile =
      some (add_revenue sys song_id a t bk).2.st.full := by
  obtain ⟨s0, hmem, hid⟩ := hfound
  have hmatch : ∃ x ∈ sys.st.songs, (fun s => decide (s.song_id = song_id)) x = true :=
    ⟨s0, hmem, by simpa using hid⟩
  have hexpS := modifyFirst_isSome (fun s => s.song_id = song_id)
    (addExpenseToSong d a c) sys.st.songs hmatch
  have hrevS := modifyFirst_isSome (fun s => s.song_id = song_id)
    (addRevenueToSong a) sys.st.songs hmatch
  obtain ⟨songsE, hE⟩ := Option.isSome_iff_exists.mp hexpS
  obtain ⟨songsR, hR⟩ := Option.isSome_iff_exists.mp hrevS
  have hEsum := revenue_summary_modifyFirst _ _ 0 a hE
    (fun s => by rw [songEarned_addExpense]; ring)
    (songExpenses_addExpense d a c)
  have hRsum := revenue_summary_modifyFirst _ _ a 0 hR
    (songEarned_addRevenue a)
    (fun s => by rw [songExpenses_addRevenue]; ring)
  refine ⟨?_, ?_, ?_, ?_, ?_, ?_, ?_, ?_, ?_⟩
  · simp [add_expense, hE]
  · simp [add_expense, hE, save_data, get_revenue_summary, hEsum.1]
  · simp [add_expense, hE, save_data, get_revenue_summary, hEsum.1, hEsum.2]
    ring
  · simp [add_revenue, hR]
  · simp [add_revenue, hR, save_data, get_revenue_summary, hRsum.1]
  · simp [add_revenue, hR, save_data, get_revenue_summary, hRsum.1, hRsum.2]
    ring
  · intro s
    constructor <;> cases hr : s.revenue <;>
      simp [addExpenseToSong, addRevenueToSong, hr]
  · simp [add_expense, hE, save_data]
  · simp [add_revenue, hR, save_data]

/-- Witness for C6: a $30 expense and a $100 revenue on the sample song. -/
theorem expense_and_revenue_arithmetic_witness :
    (∃ s ∈ sampleSys.st.songs, s.song_id = "S1") ∧
    (get_revenue_summary (add_expense sampleSys "S1" 30 "mixing" "2026-02-01" 3 true).2.st).net_revenue =
      (get_revenue_summary sampleSys.st).net_revenue - 30 ∧
    (get_revenue_summary (add_revenue sampleSys "S1" 100 4 true).2.st).total_revenue =
      (get_revenue_summary sampleSys.st).total_revenue + 100 := by
  have h := expense_and_revenue_arithmetic sampleSys "S1" 30 "mixing" "2026-02-01" 3 true
    ⟨sampleOwnedSong, by decide, by decide⟩
  have h' := expense_and_revenue_arithmetic sampleSys "S1" 100 "mixing" "2026-02-01" 4 true
    ⟨sampleOwnedSong, by decide, by decide⟩
  exact ⟨⟨sampleOwnedSong, by decide, by decide⟩, h.2.2.1, h'.2.2.2.2.1⟩

/-! ## Association-map lemmas (Python `dict` semantics) -/

theorem lookupKey_cons (a : String × String) (m : StrMap) (k : String) :
    lookupKey (a :: m) k = if a.1 = k then some a.2 else lookupKey m k := by
  by_cases h : a.1 = k <;> simp [lookupKey, List.find?_cons, h]

theorem lookupKey_append (m₁ m₂ : StrMap) (k : String) :
    lookupKey (m₁ ++ m₂) k = (lookupKey m₁ k).or (lookupKey m₂ k) := by
  simp [lookupKey, List.find?_append, Option.map_or']

theorem lookupKey_eq_none_of_not_mem (m : StrMap) (k : String)
    (h : ∀ p ∈ m, p.1 ≠ k) : lookupKey m k = none := by
  simp only [lookupKey, Option.map_eq_none']
  exact List.find?_eq_none.mpr (fun p hp => by simpa using h p hp)

theorem lookupKey_map_setKey_ne (m : StrMap) (k v k' : String) (h : k' ≠ k) :
    lookupKey (m.map (fun p => if p.1 = k then (k, v) else p)) k' = lookupKey m k' := by
  induction m with
  | nil => rfl
  | cons p m ih =>
    rw [List.map_cons]
    by_cases hp : p.1 = k
    · rw [if_pos hp, lookupKey_cons, lookupKey_cons]
      have h1 : ((k, v) : String × String).1 ≠ k' := fun hc => h (show k' = k from hc.symm)
      have h2 : p.1 ≠ k' := by rw [hp]; exact h1
      rw [if_neg h1, if_neg h2, ih]
    · rw [if_neg hp, lookupKey_cons, lookupKey_cons]
      by_cases hp' : p.1 = k'
      · rw [if_pos hp', if_pos hp']
      · rw [if_neg hp', if_neg hp', ih]

theorem lookupKey_map_setKey_eq (m : StrMap) (k v : String)
    (h : ∃ p ∈ m, p.1 = k) :
    lookupKey (m.map (fun p => if p.1 = k then (k, v) else p)) k = some v := by
  induction m with
  | nil => simp at h
  | cons p m ih =>
    rw [List.map_cons]
    by_cases hp : p.1 = k
    · rw [if_pos hp, lookupKey_cons]
      simp
    · rw [if_neg hp, lookupKey_cons, if_neg hp]
      apply ih
      obtain ⟨q, hq, hqk⟩ := h
      rcases List.mem_cons.mp hq with rfl | hq
      · exact absurd hqk hp
      · exact ⟨q, hq, hqk⟩

/-- `d[k] = v` followed by a lookup: the written key now holds `v`, every
other key is untouched. -/
theorem lookupKey_setKey (m : StrMap) (k v k' : String) :
    lookupKey (setKey m k v) k' = if k' = k then some v else lookupKey m k' := by
  by_cases hany : m.any (fun p => p.1 = k) = true
  · have hex : ∃ p ∈ m, p.1 = k := by simpa using hany
    rw [setKey, if_pos hany]
    by_cases hk : k' = k
    · subst hk
      rw [if_pos rfl, lookupKey_map_setKey_eq m k' v hex]
    · rw [if_neg hk, lookupKey_map_setKey_ne m k v k' hk]
  · have hnot : ∀ p ∈ m, p.1 ≠ k := by
      intro p hp
      simp only [List.any_eq_true, not_exists, not_and] at hany
      simpa using fun hc => hany p hp (by simpa using hc)
    rw [setKey, if_neg hany, lookupKey_append]
    by_cases hk : k' = k
    · subst hk
      rw [lookupKey_eq_none_of_not_mem m k' hnot, if_pos rfl]
      rw [lookupKey_cons]
      simp
    · have hkk : ¬ (k = k') := fun hc => hk hc.symm
      rw [if_neg hk, lookupKey_cons, if_neg hkk]
      simp [lookupKey]

/-- `old.update(new)` followed by a lookup: a key carried by `new` yields
its `new` value, any other key keeps its `old` value (key-by-key merge,
never wholesale replacement). -/
theorem lookupKey_dictUpdate (old new : StrMap) (k : String)
    (hnd : (new.map Prod.fst).Nodup) :
    lookupKey (dictUpdate old new) k = (lookupKey new k).or (lookupKey old k) := by
  induction new generalizing old with
  | nil => simp [dictUpdate, lookupKey]
  | cons p rest ih =>
    rw [List.map_cons] at hnd
    obtain ⟨hnotin, hnd'⟩ := List.nodup_cons.mp hnd
    have hstep : dictUpdate old (p :: rest) = dictUpdate (setKey old p.1 p.2) rest := rfl
    rw [hstep, ih _ hnd', lookupKey_cons, lookupKey_setKey]
    by_cases hk : p.1 = k
    · have hrest : lookupKey rest k = none := by
        apply lookupKey_eq_none_of_not_mem
        intro q hq hqk
        exact hnotin (hk ▸ hqk ▸ List.mem_map_of_mem Prod.fst hq)
      rw [if_pos hk, hrest, if_pos hk.symm]
      simp
    · have hkk : ¬ (k = p.1) := fun hc => hk hc.symm
      rw [if_neg hk, if_neg hkk]

/-! ## Field-level behaviour of `applyUpdates` -/

theorem applyUpdates_registration (s : Song) (u : Updates) (now : String)
    (reg : StrMap) (h : u.registration = some reg) :
    (applyUpdates s u now).registration =
      some (dictUpdate (s.registration.getD []) reg) := by
  unfold applyUpdates
  rw [h]
  cases u.deployments <;> rfl

theorem applyUpdates_deployments (s : Song) (u : Updates) (now : String)
    (du : Deployments) (h : u.deployments = some du) :
    (applyUpdates s u now).deployments = some (
      { distribution := updOpt du.distribution ((s.deployments.getD emptyDeployments).distribution),
        sync_libraries := updOpt du.sync_libraries ((s.deployments.getD emptyDeployments).sync_libraries),
        streaming := updOpt du.streaming ((s.deployments.getD emptyDeployments).streaming) } : Deployments) := by
  unfold applyUpdates
  rw [h]
  cases u.registration <;> rfl

theorem applyUpdates_title (s : Song) (u : Updates) (now : String) :
    (applyUpdates s u now).title = u.title.getD s.title := by
  unfold applyUpdates
  cases u.registration <;> cases u.deployments <;> rfl

theorem applyUpdates_artist (s : Song) (u : Updates) (now : String) :
    (applyUpdates s u now).artist = updOpt u.artist s.artist := by
  unfold applyUpdates
  cases u.registration <;> cases u.deployments <;> rfl

theorem applyUpdates_status (s : Song) (u : Updates) (now : String) :
    (applyUpdates s u now).status = updOpt u.status s.status := by
  unfold applyUpdates
  cases u.registration <;> cases u.deployments <;> rfl

theorem applyUpdates_legacy_code (s : Song) (u : Updates) (now : String) :
    (applyUpdates s u now).legacy_code = updOpt u.legacy_code s.legacy_code := by
  unfold applyUpdates
  cases u.registration <;> cases u.deployments <;> rfl

theorem applyUpdates_revenue (s : Song) (u : Updates) (now : String) :
    (applyUpdates s u now).revenue = updOpt u.revenue s.revenue := by
  unfold applyUpdates
  cases u.registration <;> cases u.deployments <;> rfl

theorem applyUpdates_act_id (s : Song) (u : Updates) (now : String) :
    (applyUpdates s u now).act_id = s.act_id := by
  unfold applyUpdates
  cases u.registration <;> cases u.deployments <;> rfl

theorem applyUpdates_last_modified (s : Song) (u : Updates) (now : String) :
    lookupKey ((applyUpdates s u now).dates.getD []) "last_modified" = some now := by
  have hdates : (applyUpdates s u now).dates = some (setKey
      ((match u.registration, u.deployments with
        | _, _ => s.dates : Option StrMap).getD []) "last_modified" now) := by
    unfold applyUpdates
    cases u.registration <;> cases u.deployments <;> rfl
  rw [hdates]
  simp only [Option.getD_some]
  rw [lookupKey_setKey]
  exact if_pos rfl

/-! ## C3 — `update_song` merges nested groups and overwrites the rest -/

/-- C3: on a matching owned song, `update_song` returns `true`, replaces
exactly the first matching song by its updated version, and persists that
state via `save_data`.  The updated song merges the `registration` mapping
key-by-key (a key carried by the update takes its new value, every other
existing key is preserved — creating the mapping when absent), merges the
`deployments` mapping key-by-key (a deployment list carried by the update
replaces the stored one, the others are preserved, over the freshly created
empty mapping when absent), overwrites every other top-level field exactly
when the updates dict supplies it, and stamps `dates.last_modified` with
the current timestamp. -/
theorem update_song_merges_and_persists (sys : Sys) (I : String) (u : Updates)
    (now : String) (t : Nat) (bk : Bool) (pre post : List Song) (s : Song)
    (hsplit : sys.st.songs = pre ++ s :: post)
    (hpre : ∀ x ∈ pre, x.song_id ≠ I)
    (hs : s.song_id = I) :
    (update_song sys I u now t bk).1 = true ∧
    (update_song sys I u now t bk).2.1.st.songs = pre ++ applyUpdates s u now :: post ∧
    (update_song sys I u now t bk).2.1 =
      save_data { st := { full := sys.st.full, songs := pre ++ applyUpdates s u now :: post },
                  fs := sys.fs } t bk ∧
    (∀ reg, u.registration = some reg → (reg.map Prod.fst).Nodup →
      ∀ k, lookupKey ((applyUpdates s u now).registration.getD []) k =
        ((lookupKey reg k).or (lookupKey (s.registration.getD []) k))) ∧
    (∀ du, u.deployments = some du →
      (applyUpdates s u now).deployments = some (
        { distribution := updOpt du.distribution ((s.deployments.getD emptyDeployments).distribution),
          sync_libraries := updOpt du.sync_libraries ((s.deployments.getD emptyDeployments).sync_libraries),
          streaming := updOpt du.streaming ((s.deployments.getD emptyDeployments).streaming) } : Deployments)) ∧
    (applyUpdates s u now).title = u.title.getD s.title ∧
    (applyUpdates s u now).artist = updOpt u.artist s.artist ∧
    (applyUpdates s u now).status = updOpt u.status s.status ∧
    (applyUpdates s u now).legacy_code = updOpt u.legacy_code s.legacy_code ∧
    (applyUpdates s u now).revenue = updOpt u.revenue s.revenue ∧
    lookupKey ((applyUpdates s u now).dates.getD []) "last_modified" = some now := by
  have hmod : modifyFirst (fun x => x.song_id = I) (fun x => applyUpdates x u now) sys.st.songs
      = some (pre ++ applyUpdates s u now :: post) := by
    rw [hsplit]
    exact modifyFirst_append _ _ _ _ _
      (fun x hx => by simpa using hpre x hx) (by simpa using hs)
  refine ⟨?_, ?_, ?_, ?_, applyUpdates_deployments s u now, applyUpdates_title s u now,
    applyUpdates_artist s u now, applyUpdates_status s u now,
    applyUpdates_legacy_code s u now, applyUpdates_revenue s u now,
    applyUpdates_last_modified s u now⟩
  · simp [update_song, hmod]
  · simp [update_song, hmod, save_data]
  · simp [update_song, hmod]
  · intro reg hreg hnd k
    rw [applyUpdates_registration s u now reg hreg]
    simp only [Option.getD_some]
    exact lookupKey_dictUpdate _ reg k hnd

/-- Witness for C3: updating the sample song's status, registration and
distribution list. -/
theorem update_song_merges_and_persists_witness :
    (sampleSys.st.songs = [] ++ sampleOwnedSong :: [sampleOtherSong].filter isOwned ∧
     sampleOwnedSong.song_id = "S1") ∧
    (update_song sampleSys "S1" sampleUpdates "2026-03-01T10:00:00" 9 true).1 = true ∧
    (applyUpdates sampleOwnedSong sampleUpdates "2026-03-01T10:00:00").status = some "mastered" ∧
    lookupKey ((applyUpdates sampleOwnedSong sampleUpdates "2026-03-01T10:00:00").registration.getD [])
      "isrc" = some "US-XYZ-26-00001" ∧
    lookupKey ((applyUpdates sampleOwnedSong sampleUpdates "2026-03-01T10:00:00").dates.getD [])
      "last_modified" = some "2026-03-01T10:00:00" := by
  have h := update_song_merges_and_persists sampleSys "S1" sampleUpdates
    "2026-03-01T10:00:00" 9 true [] ([sampleOtherSong].filter isOwned) sampleOwnedSong
    (by decide) (by intro x hx; simp at hx) (by decide)
  refine ⟨⟨by decide, by decide⟩, h.1, ?_, ?_, h.2.2.2.2.2.2.2.2.2.2⟩
  · rw [h.2.2.2.2.2.2.2.1]
    decide
  · have := h.2.2.2.1 [("isrc", "US-XYZ-26-00001")] (by decide) (by decide) "isrc"
    rw [this]
    decide

/-! ## C5 — backup retention -/

/-- Pruning an already-pruned directory extended by new files prunes the
original extension: dropping oldest files twice is the same as once. -/
theorem prune_backups_compose (X Y : List Nat) :
    prune_backups (prune_backups X ++ Y) = prune_backups (X ++ Y) := by
  unfold prune_backups
  rw [List.drop_append_eq_append_drop, List.drop_drop, List.drop_append_eq_append_drop]
  simp only [List.length_append, List.length_drop]
  have h1 : X.length - 10 + (X.length - (X.length - 10) + Y.length - 10)
      = X.length + Y.length - 10 := by omega
  have h2 : X.length - (X.length - 10) + Y.length - 10 - (X.length - (X.length - 10))
      = X.length + Y.length - 10 - X.length := by omega
  rw [h1, h2]

/-- On a strictly ascending directory extended with a strictly newer
timestamp, one `_backup_data` call appends the new file and prunes. -/
theorem backup_data_of_sorted (t : Nat) (b : List Nat)
    (h : (b ++ [t]).Pairwise (· < ·)) :
    backup_data t b = prune_backups (b ++ [t]) := by
  obtain ⟨hb, -, hlt⟩ := List.pairwise_append.mp h
  have hnotmem : t ∉ b := fun hmem =>
    lt_irrefl t (hlt t hmem t (List.mem_singleton_self t))
  have hsorted : (b ++ [t]).Pairwise (fun a b => decide (a ≤ b) = true) :=
    h.imp (fun hab => by simpa using le_of_lt hab)
  show prune_backups ((if t ∈ b then b else b ++ [t]).mergeSort (fun a b => a ≤ b)) = _
  rw [if_neg hnotmem, List.mergeSort_of_sorted hsorted]

/-- Folding `_backup_data` over strictly newer timestamps is one global
append-then-prune. -/
theorem foldl_backup_data (ts : List Nat) (b : List Nat)
    (hne : ts ≠ [])
    (hsorted : (b ++ ts).Pairwise (· < ·)) :
    ts.foldl (fun acc t => backup_data t acc) b = prune_backups (b ++ ts) := by
  induction ts generalizing b with
  | nil => exact absurd rfl hne
  | cons t rest ih =>
    have hbt : (b ++ [t]).Pairwise (· < ·) := by
      refine hsorted.sublist ?_
      refine List.Sublist.append (List.Sublist.refl b) ?_
      exact List.singleton_sublist.mpr (List.mem_cons_self t rest)
    cases rest with
    | nil =>
      simpa using backup_data_of_sorted t b hbt
    | cons t' rest' =>
      have hstep : (t :: t' :: rest').foldl (fun acc t => backup_data t acc) b
          = (t' :: rest').foldl (fun acc t => backup_data t acc) (backup_data t b) := rfl
      rw [hstep, backup_data_of_sorted t b hbt]
      have hk : (b ++ [t]).length - 10 ≤ (b ++ [t]).length := Nat.sub_le _ _
      have hprune_eq : prune_backups (b ++ [t]) ++ (t' :: rest')
          = ((b ++ [t]) ++ (t' :: rest')).drop ((b ++ [t]).length - 10) := by
        rw [List.drop_append_of_le_length hk]
        rfl
      have hsorted' : (prune_backups (b ++ [t]) ++ (t' :: rest')).Pairwise (· < ·) := by
        rw [hprune_eq]
        refine List.Pairwise.sublist (List.drop_sublist _ _) ?_
        simpa using hsorted
      rw [ih (prune_backups (b ++ [t])) (by simp) hsorted', prune_backups_compose]
      simp

/-- C5: starting from any strictly ascending backups directory, a run of
`N > 10` saves at strictly increasing fresh timestamps leaves exactly ten
backup files, and they are the ten most recently created ones (the last
ten timestamps of the run): each save writes its new full-document backup
and then deletes oldest-first by filename until at most ten remain. -/
theorem backup_retention (sys : Sys) (ts : List Nat)
    (hlen : 10 < ts.length)
    (hts : ts.Pairwise (· < ·))
    (hb : sys.fs.backups.Pairwise (· < ·))
    (hnew : ∀ x ∈ sys.fs.backups, ∀ y ∈ ts, x < y) :
    (saveSeq sys ts).fs.backups = ts.drop (ts.length - 10) ∧
    (saveSeq sys ts).fs.backups.length = 10 := by
  have hbridge : ∀ (l : List Nat) (s : Sys),
      (saveSeq s l).fs.backups = l.foldl (fun acc t => backup_data t acc) s.fs.backups := by
    intro l
    induction l with
    | nil => intro s; rfl
    | cons t rest ih =>
      intro s
      have h1 : saveSeq s (t :: rest) = saveSeq (save_data s t true) rest := rfl
      rw [h1, ih]
      rfl
  have hsorted : (sys.fs.backups ++ ts).Pairwise (· < ·) :=
    List.pairwise_append.mpr ⟨hb, hts, hnew⟩
  have hne : ts ≠ [] := by
    intro hnil
    rw [hnil] at hlen
    simp at hlen
  have hmain := foldl_backup_data ts sys.fs.backups hne hsorted
  have heq : (saveSeq sys ts).fs.backups = prune_backups (sys.fs.backups ++ ts) := by
    rw [hbridge ts sys, hmain]
  have hdrop : prune_backups (sys.fs.backups ++ ts) = ts.drop (ts.length - 10) := by
    unfold prune_backups
    rw [List.length_append, List.drop_append_eq_append_drop]
    rw [List.drop_eq_nil_of_le (by omega)]
    rw [List.nil_append]
    congr 1
    omega
  refine ⟨heq.trans hdrop, ?_⟩
  rw [heq.trans hdrop, List.length_drop]
  omega

/-- Witness for C5: eleven saves over an empty backups directory leave the
ten newest files. -/
theorem backup_retention_witness :
    (10 < ([1, 2, 3, 4, 5, 6, 7, 8, 9, 10, 11] : List Nat).length) ∧
    (saveSeq sampleSys [1, 2, 3, 4, 5, 6, 7, 8, 9, 10, 11]).fs.backups
      = [2, 3, 4, 5, 6, 7, 8, 9, 10, 11] ∧
    (saveSeq sampleSys [1, 2, 3, 4, 5, 6, 7, 8, 9, 10, 11]).fs.backups.length = 10 := by
  have h := backup_retention sampleSys [1, 2, 3, 4, 5, 6, 7, 8, 9, 10, 11]
    (by decide) (by decide) (by decide) (by decide)
  exact ⟨by decide, h.1.trans (by decide), h.2⟩

/-! ## C1 — the round-trip frame property of an editor session -/

theorem addExpenseToSong_act_id (d : String) (a : ℚ) (c : String) (s : Song) :
    (addExpenseToSong d a c s).act_id = s.act_id := rfl

theorem addRevenueToSong_act_id (a : ℚ) (s : Song) :
    (addRevenueToSong a s).act_id = s.act_id := rfl

/-- All songs of the editor's working set belong to the configured owner. -/
def ownedSongsInv (sys : Sys) : Prop :=
  ∀ s ∈ sys.st.songs, isOwned s = true

theorem modifyFirst_preserves_owned (p : Song → Bool) (f : Song → Song)
    {l l' : List Song} (h : modifyFirst p f l = some l')
    (hf : ∀ s, (f s).act_id = s.act_id)
    (hl : ∀ s ∈ l, isOwned s = true) : ∀ s ∈ l', isOwned s = true := by
  obtain ⟨pre, s, post, rfl, rfl, -, -⟩ := modifyFirst_eq_some p f h
  intro x hx
  rcases List.mem_append.mp hx with hx | hx
  · exact hl x (List.mem_append.mpr (Or.inl hx))
  · rcases List.mem_cons.mp hx with rfl | hx
    · have hsown := hl s (List.mem_append.mpr (Or.inr (List.mem_cons_self s post)))
      simpa [isOwned, hf s] using hsown
    · exact hl x (List.mem_append.mpr (Or.inr (List.mem_cons_of_mem s hx)))

theorem filter_not_owned_merged (st : EditorState)
    (hsongs : ∀ s ∈ st.songs, isOwned s = true) :
    (mergedSongs st).filter (fun s => !(isOwned s))
      = st.full.songList.filter (fun s => !(isOwned s)) := by
  have h2 : st.songs.filter (fun s => !(isOwned s)) = [] := by
    rw [List.filter_eq_nil_iff]
    intro a ha
    simp [hsongs a ha]
  unfold mergedSongs
  rw [List.filter_append, h2, List.append_nil, List.filter_filter]
  simp only [Bool.and_self]

theorem filter_owned_merged (st : EditorState)
    (hsongs : ∀ s ∈ st.songs, isOwned s = true) :
    (mergedSongs st).filter isOwned = st.songs := by
  unfold mergedSongs
  rw [List.filter_append]
  have h1 : (st.full.songList.filter (fun s => !(isOwned s))).filter isOwned = [] := by
    rw [List.filter_eq_nil_iff]
    intro a ha
    have := (List.mem_filter.mp ha).2
    simp_all
  rw [h1, List.filter_eq_self.mpr hsongs, List.nil_append]

/-- One mutating editor call keeps the working set owned and never changes
which non-owned songs the held-back document yields. -/
theorem applyMutation_preserves (sys : Sys) (m : Mutation)
    (h : ownedSongsInv sys) :
    ownedSongsInv (applyMutation sys m) ∧
    (applyMutation sys m).st.full.songList.filter (fun s => !(isOwned s))
      = sys.st.full.songList.filter (fun s => !(isOwned s)) := by
  have hsave : ∀ (songs' : List Song) (t : Nat) (bk : Bool),
      (∀ s ∈ songs', isOwned s = true) →
      ownedSongsInv (save_data { st := { full := sys.st.full, songs := songs' }, fs := sys.fs } t bk) ∧
      (save_data { st := { full := sys.st.full, songs := songs' }, fs := sys.fs } t bk).st.full.songList.filter
          (fun s => !(isOwned s))
        = sys.st.full.songList.filter (fun s => !(isOwned s)) := by
    intro songs' t bk hsongs'
    constructor
    · intro s hs
      exact hsongs' s hs
    · exact filter_not_owned_merged { full := sys.st.full, songs := songs' } hsongs'
  cases m with
  | upd I u now t bk =>
    cases hmod : modifyFirst (fun x => x.song_id = I) (fun x => applyUpdates x u now) sys.st.songs with
    | none =>
      have hredu : applyMutation sys (Mutation.upd I u now t bk) = sys := by
        simp [applyMutation, update_song, hmod]
      rw [hredu]
      exact ⟨h, rfl⟩
    | some songs' =>
      have hredu : applyMutation sys (Mutation.upd I u now t bk)
          = save_data { st := { full := sys.st.full, songs := songs' }, fs := sys.fs } t bk := by
        simp [applyMutation, update_song, hmod]
      rw [hredu]
      exact hsave songs' t bk
        (modifyFirst_preserves_owned _ _ hmod (fun s => applyUpdates_act_id s u now) h)
  | exp I a c d t bk =>
    cases hmod : modifyFirst (fun x => x.song_id = I) (addExpenseToSong d a c) sys.st.songs with
    | none =>
      have hredu : applyMutation sys (Mutation.exp I a c d t bk) = sys := by
        simp [applyMutation, add_expense, hmod]
      rw [hredu]
      exact ⟨h, rfl⟩
    | some songs' =>
      have hredu : applyMutation sys (Mutation.exp I a c d t bk)
          = save_data { st := { full := sys.st.full, songs := songs' }, fs := sys.fs } t bk := by
        simp [applyMutation, add_expense, hmod]
      rw [hredu]
      exact hsave songs' t bk
        (modifyFirst_preserves_owned _ _ hmod (addExpenseToSong_act_id d a c) h)
  | rev I a t bk =>
    cases hmod : modifyFirst (fun x => x.song_id = I) (addRevenueToSong a) sys.st.songs with
    | none =>
      have hredu : applyMutation sys (Mutation.rev I a t bk) = sys := by
        simp [applyMutation, add_revenue, hmod]
      rw [hredu]
      exact ⟨h, rfl⟩
    | some songs' =>
      have hredu : applyMutation sys (Mutation.rev I a t bk)
          = save_data { st := { full := sys.st.full, songs := songs' }, fs := sys.fs } t bk := by
        simp [applyMutation, add_revenue, hmod]
      rw [hredu]
      exact hsave songs' t bk
        (modifyFirst_preserves_owned _ _ hmod (addRevenueToSong_act_id a) h)

theorem applyMutations_preserves (sys : Sys) (ms : List Mutation)
    (h : ownedSongsInv sys) :
    ownedSongsInv (applyMutations sys ms) ∧
    (applyMutations sys ms).st.full.songList.filter (fun s => !(isOwned s))
      = sys.st.full.songList.filter (fun s => !(isOwned s)) := by
  induction ms generalizing sys with
  | nil => exact ⟨h, rfl⟩
  | cons m rest ih =>
    have h1 := applyMutation_preserves sys m h
    have h2 := ih (applyMutation sys m) h1.1
    exact ⟨h2.1, h2.2.trans h1.2⟩

/-- C1: open a session on any catalog document `C`, run any sequence of
editor mutations, and save.  The document written by `save_data` contains
every non-`PARK_BELLEVUE` song of `C` unchanged — the same records in the
same relative order — and its `PARK_BELLEVUE` songs are exactly the
editor's current in-memory owned list with every applied edit. -/
theorem session_save_preserves_other_owners (C : Catalog) (backups : List Nat)
    (ms : List Mutation) (t : Nat) (bk : Bool) :
    ∃ doc : Catalog,
      (save_data (applyMutations (startSession { catalogFile := some C, backups := backups }) ms)
          t bk).fs.catalogFile = some doc ∧
      doc.songList.filter (fun s => !(isOwned s))
        = C.songList.filter (fun s => !(isOwned s)) ∧
      doc.songList.filter isOwned
        = (applyMutations (startSession { catalogFile := some C, backups := backups }) ms).st.songs := by
  have h0 : ownedSongsInv (startSession { catalogFile := some C, backups := backups }) := by
    intro s hs
    exact (List.mem_filter.mp hs).2
  have hinv := applyMutations_preserves _ ms h0
  have hfull0 : (startSession { catalogFile := some C, backups := backups }).st.full = C := rfl
  refine ⟨_, rfl, ?_, ?_⟩
  · show (mergedSongs _).filter _ = _
    rw [filter_not_owned_merged _ hinv.1]
    rw [hfull0] at hinv
    exact hinv.2
  · show (mergedSongs _).filter _ = _
    exact filter_owned_merged _ hinv.1

/-! ## C8 — platform coverage counts occurrences, not distinct songs -/

/-- Counterexample to C8 as stated: a song listing `"YouTube"` under both
`sync_libraries` and `streaming` is counted twice by the dashboard's
`platform_counts`, while only one distinct song references the platform. -/
theorem platform_counts_double_counts :
    platform_counts [dualPlatformSong] "YouTube" = 2 ∧
    spec_distinct_song_count [dualPlatformSong] "YouTube" = 1 ∧
    platform_counts [dualPlatformSong] "YouTube"
      ≠ spec_distinct_song_count [dualPlatformSong] "YouTube" := by
  refine ⟨by decide, by decide, by decide⟩

/-- C8 (amended): the platform-coverage view reports, for platform `p`, the
total number of occurrences of `p` across the combined distribution,
sync_libraries and streaming lists of all songs; this equals the number of
distinct songs referencing `p` whenever no song lists `p` more than once
across its three lists. -/
theorem platform_counts_occurrences (songs : List Song) (p : String) :
    platform_counts songs p = (songs.map (fun s => (allPlats s).count p)).sum ∧
    ((∀ s ∈ songs, (allPlats s).count p ≤ 1) →
      platform_counts songs p = spec_distinct_song_count songs p) := by
  constructor
  · simp [platform_counts, List.count_flatten, Function.comp_def]
  · intro h
    induction songs with
    | nil => rfl
    | cons s rest ih =>
      have hs := h s (List.mem_cons_self s rest)
      have hrest : ∀ x ∈ rest, (allPlats x).count p ≤ 1 :=
        fun x hx => h x (List.mem_cons_of_mem s hx)
      have hstep : platform_counts (s :: rest) p
          = (allPlats s).count p + platform_counts rest p := by
        simp [platform_counts, List.count_append]
      by_cases hp : p ∈ allPlats s
      · have hpos : 0 < (allPlats s).count p := List.count_pos_iff.mpr hp
        have hone : (allPlats s).count p = 1 := by omega
        rw [hstep, hone, ih hrest]
        simp [spec_distinct_song_count, List.filter_cons, hp, Nat.add_comm]
      · have hzero : (allPlats s).count p = 0 := by
          rw [List.count_eq_zero]
          exact hp
        rw [hstep, hzero, ih hrest, Nat.zero_add]
        simp [spec_distinct_song_count, List.filter_cons, hp]

/-- Witness for the amended C8 at a list where no song repeats the
platform. -/
theorem platform_counts_occurrences_witness :
    (∀ s ∈ [sampleOwnedSong, dualPlatformSong], (allPlats s).count "Spotify" ≤ 1) ∧
    platform_counts [sampleOwnedSong, dualPlatformSong] "Spotify" =
      spec_distinct_song_count [sampleOwnedSong, dualPlatformSong] "Spotify" := by
  exact ⟨by decide,
    (platform_counts_occurrences [sampleOwnedSong, dualPlatformSong] "Spotify").2 (by decide)⟩

end ParkBellevue
